import Mathlib

/-!
Shallow embedding of the kiriri sensor bridge: the frame parser, the
latest-value cache and the broadcast hub of bridge_server.py, and the
keepalive loop, reconnect backoff and session-attempt cap of
kiriri_bridge.py, together with theorems settling the specification
claims about them.

Python strings are modelled as lists of characters (frame payloads are
ASCII); float values are modelled as exact rationals, so the division by
100.0 in the parser is exact rational division.
-/

namespace Kiriri

/-- Whitespace test used by str.strip, restricted to the ASCII whitespace
characters (space, tab, newline, carriage return, vertical tab, form feed). -/
def isPySpace (c : Char) : Bool :=
  c.toNat = 32 || c.toNat = 9 || c.toNat = 10 || c.toNat = 13 ||
  c.toNat = 11 || c.toNat = 12

/-- Python str.strip: drop whitespace from both ends of the string. -/
def pyStrip (l : List Char) : List Char :=
  ((l.dropWhile isPySpace).reverse.dropWhile isPySpace).reverse

/-- Python str.split with a one-character separator: "".split gives [""],
and every separator occurrence opens a new part. -/
def pySplit (sep : Char) : List Char → List (List Char)
  | [] => [[]]
  | c :: rest =>
    if c = sep then [] :: pySplit sep rest
    else
      match pySplit sep rest with
      | [] => [[c]]
      | p :: ps => (c :: p) :: ps

/-- Digit-run parser inside Python int(): decimal digits with single
underscores allowed strictly between digits, accumulating the value. -/
def pyDigitsCore (acc : Nat) : List Char → Option Nat
  | [] => some acc
  | c :: rest =>
    if c.isDigit then pyDigitsCore (10 * acc + (c.toNat - 48)) rest
    else if c = '_' then
      match rest with
      | [] => none
      | d :: _ => if d.isDigit then pyDigitsCore acc rest else none
    else none

/-- Unsigned decimal parser of Python int(): nonempty and starting with a
digit, otherwise a ValueError (modelled as none). -/
def pyParseNat : List Char → Option Nat
  | [] => none
  | c :: rest => if c.isDigit then pyDigitsCore (c.toNat - 48) rest else none

/-- Signed decimal parser of Python int(), applied after stripping: one
optional sign then a digit run. -/
def pySigned : List Char → Option Int
  | [] => none
  | c :: rest =>
    if c = '+' then (pyParseNat rest).map Int.ofNat
    else if c = '-' then (pyParseNat rest).map (fun n => -(Int.ofNat n))
    else (pyParseNat (c :: rest)).map Int.ofNat

/-- Python int() on a string: strip surrounding whitespace, accept one
optional sign, then a digit run; anything else raises ValueError (none). -/
def pyInt (s : List Char) : Option Int := pySigned (pyStrip s)

/-- Decimal digit list of a natural number, fuel-indexed so that it is a
structural recursion the kernel can evaluate. -/
def natDecAux : Nat → Nat → List Char
  | 0, _ => []
  | fuel + 1, n =>
    if n < 10 then [Char.ofNat (48 + n)]
    else natDecAux fuel (n / 10) ++ [Char.ofNat (48 + n % 10)]

/-- Decimal representation of a natural number (Python str of an int). -/
def natDec (n : Nat) : List Char := natDecAux (n + 1) n

/-- Decimal representation of an integer (Python str of an int): a minus
sign followed by the digits when negative. -/
def intDec (i : Int) : List Char :=
  if i < 0 then '-' :: natDec i.natAbs else natDec i.toNat

/-- The wire frame of §6: the START marker N:, decimal y, the colon
separator, decimal x, and the carriage-return END terminator. -/
def encodeFrame (y x : Int) : List Char :=
  ['N', ':'] ++ intDec y ++ [':'] ++ intDec x ++ ['\r']

/-- The latest_angles record of bridge_server.py: device id plus the two
scaled angle fields (floats modelled as exact rationals). -/
structure Reading where
  id : Option (List Char)
  y : Rat
  x : Rat
deriving DecidableEq

/-- One WebSocket client: its identity, plus whether its transport is
alive; client.send raises ConnectionClosed exactly when it is not. -/
structure Client where
  id : Nat
  alive : Bool
deriving DecidableEq

/-- The global state of bridge_server.py: latest_angles, the
new_data_available event, connected_clients, and the observable log of
messages delivered to clients (each entry is a client id with the reading
it received). -/
structure ServerState where
  reading : Reading
  newDataAvailable : Bool
  clients : List Client
  delivered : List (Nat × Reading)
deriving DecidableEq

/-- The startup state of the globals (bridge_server.py lines 42-44):
latest_angles has id None and zero angles, the event is unset and no
client is connected. -/
def initialState : ServerState :=
  { reading := { id := none, y := 0, x := 0 },
    newDataAvailable := false,
    clients := [],
    delivered := [] }

/-- text_data.startswith("N:") on the decoded notification text. -/
def startsWithNColon : List Char → Bool
  | c1 :: c2 :: _ => c1 == 'N' && c2 == ':'
  | _ => false

/-- handle_data (bridge_server.py lines 104-127): check the N: marker at
the start of the decoded text, split the remainder on the colon, require
exactly two parts, parse both integer fields (a ValueError is caught and
leaves the state untouched), and only then write both scaled fields and
set the new-data event. A failed UTF-8 decode is also caught and leaves
the state untouched, so the function is modelled on the decoded text. -/
def handleData (data : List Char) (s : ServerState) : ServerState :=
  if startsWithNColon data then
    match pySplit ':' (data.drop 2) with
    | [p0, p1] =>
      match pyInt (pyStrip p0) with
      | none => s
      | some yRaw =>
        match pyInt (pyStrip p1) with
        | none => s
        | some xRaw =>
          { s with
            reading := { s.reading with
              y := (yRaw : Rat) / 100, x := (xRaw : Rat) / 100 },
            newDataAvailable := true }
    | _ => s
  else s

/-- The cache write of handle_data's success branch (lines 118-120):
overwrite both angle fields and set the new-data event. -/
def cacheUpdate (y x : Rat) (s : ServerState) : ServerState :=
  { s with
    reading := { s.reading with y := y, x := x },
    newDataAvailable := true }

/-- One wake of the send_data_to_clients loop (lines 131-148): when the
event is set, clear it, skip the cycle if no client is connected,
serialize the reading once, send it to every client in iteration order
collecting the clients whose send raised ConnectionClosed, and finally
remove the failed clients from the set. When the event is clear the loop
is blocked in wait() and nothing happens. -/
def broadcastStep (s : ServerState) : ServerState :=
  if s.newDataAvailable then
    let s1 := { s with newDataAvailable := false }
    if s1.clients.isEmpty then s1
    else
      let msg := s1.reading
      let disconnected := s1.clients.filter (fun c => !c.alive)
      let s2 := { s1 with
        delivered := s1.delivered ++
          (s1.clients.filter (fun c => c.alive)).map (fun c => (c.id, msg)) }
      if disconnected.isEmpty then s2
      else { s2 with
        clients := s2.clients.filter (fun c => decide (c ∉ disconnected)) }
  else s

/-- Sequential fan-out timing of one broadcast (lines 141-143): the for
loop awaits each client's send in iteration order, so a send begins only
after every earlier send has completed. Input pairs are (client id, send
duration), output pairs are (client id, completion time measured from the
start of the fan-out). -/
def sendSeq (t : Nat) : List (Nat × Nat) → List (Nat × Nat)
  | [] => []
  | (cid, d) :: rest => (cid, t + d) :: sendSeq (t + d) rest

/-- The ConnectionState enum of kiriri_bridge.py. -/
inductive ConnState where
  | disconnected
  | scanning
  | connecting
  | discovering
  | connected
  | reconnecting
  | error
deriving DecidableEq

/-- Outcome of one write attempt inside the keepalive loop: the write
either returns or raises. -/
inductive KAEvent where
  | writeOk
  | writeFail
deriving DecidableEq

/-- Observable result of the keepalive coroutine: how many writes it
attempted, the supervisor state when it returned, and whether it released
the session (called disconnect). -/
structure KAOutcome where
  writes : Nat
  state : ConnState
  released : Bool
deriving DecidableEq

/-- Loop body of send_keepalive (kiriri_bridge.py lines 378-391): sleep
for the interval then write the keepalive command; an exception from the
write is logged and breaks out of the loop. The trace ends when the
client disconnects or should_stop is set. No statement in the body
changes self.state or releases the session. -/
def sendKeepaliveGo (st : ConnState) (n : Nat) : List KAEvent → KAOutcome
  | [] => { writes := n, state := st, released := false }
  | KAEvent.writeOk :: rest => sendKeepaliveGo st (n + 1) rest
  | KAEvent.writeFail :: _ => { writes := n + 1, state := st, released := false }

/-- send_keepalive (lines 373-391): returns immediately when keepalive is
disabled, otherwise runs the write loop. -/
def sendKeepalive (enabled : Bool) (st : ConnState) (events : List KAEvent) :
    KAOutcome :=
  if enabled then sendKeepaliveGo st 0 events
  else { writes := 0, state := st, released := false }

/-- The execution paths of connect_and_run (kiriri_bridge.py lines
399-455), one per return site: no device found, connection failure,
service-discovery failure, notification-setup failure, a successful
session that later ended in disconnect, and the outer exception handler. -/
inductive SessionResult where
  | noDevice
  | connectFailed
  | discoverFailed
  | notifySetupFailed
  | connectedThenDisconnected
  | raisedException
deriving DecidableEq

/-- connect_and_run's return value on each path: every return statement in
the source returns False, including line 451 where a successful session
has ended in disconnect. -/
def connectAndRun : SessionResult → Bool
  | SessionResult.noDevice => false
  | SessionResult.connectFailed => false
  | SessionResult.discoverFailed => false
  | SessionResult.notifySetupFailed => false
  | SessionResult.connectedThenDisconnected => false
  | SessionResult.raisedException => false

/-- The run loop of kiriri_bridge.py (lines 457-505): each iteration
performs one session via connect_and_run; on a False result the attempt
counter is incremented, the loop breaks when a positive cap has been
reached, and otherwise it sleeps the current reconnect delay and then
multiplies the delay by the backoff factor, capped at the maximum delay.
The result is the list of slept delays together with the number of
sessions performed; the end of the outcome list models should_stop. -/
def runModel (f maxD : Rat) (cap : Int) :
    Rat → Nat → List SessionResult → List Rat × Nat
  | _, _, [] => ([], 0)
  | delay, count, r :: rs =>
    if connectAndRun r then
      let res := runModel f maxD cap delay count rs
      (res.1, res.2 + 1)
    else
      let count' := count + 1
      if 0 < cap ∧ cap ≤ (count' : Int) then ([], 1)
      else
        let res := runModel f maxD cap (min (delay * f) maxD) count' rs
        (delay :: res.1, res.2 + 1)

/-! Facts about decimal digits and the integer round-trip. -/

/-- A character produced by the decimal printer: a digit, hence not
whitespace, not a separator and not a sign. -/
def GoodDigit (c : Char) : Prop :=
  c.isDigit = true ∧ isPySpace c = false ∧ c ≠ ':' ∧ c ≠ '+' ∧ c ≠ '-'

lemma digitChar_props (d : Nat) (h : d < 10) :
    GoodDigit (Char.ofNat (48 + d)) ∧ (Char.ofNat (48 + d)).toNat = 48 + d := by
  interval_cases d <;> exact ⟨⟨by decide, by decide, by decide, by decide, by decide⟩, by decide⟩

lemma natDecAux_spec (fuel : Nat) :
    ∀ n : Nat, n < fuel →
      natDecAux fuel n ≠ [] ∧ (∀ c ∈ natDecAux fuel n, GoodDigit c) ∧
      (natDecAux fuel n).foldl (fun a c => 10 * a + (c.toNat - 48)) 0 = n := by
  induction fuel with
  | zero => intro n hn; omega
  | succ fuel ih =>
    intro n hn
    by_cases h10 : n < 10
    · refine ⟨by simp [natDecAux, h10], ?_, ?_⟩
      · intro c hc
        simp [natDecAux, h10] at hc
        exact hc ▸ (digitChar_props n h10).1
      · simp [natDecAux, h10, List.foldl, (digitChar_props n h10).2]
    · have hdiv : n / 10 < n := Nat.div_lt_self (by omega) (by omega)
      have hfuel : n / 10 < fuel := by omega
      obtain ⟨hne, hdig, hval⟩ := ih (n / 10) hfuel
      have hmod : n % 10 < 10 := Nat.mod_lt _ (by omega)
      refine ⟨by simp [natDecAux, h10], ?_, ?_⟩
      · intro c hc
        simp only [natDecAux, if_neg h10, List.mem_append, List.mem_singleton] at hc
        rcases hc with hc | hc
        · exact hdig c hc
        · exact hc ▸ (digitChar_props (n % 10) hmod).1
      · simp only [natDecAux, if_neg h10, List.foldl_append, List.foldl, hval,
          (digitChar_props (n % 10) hmod).2]
        omega

lemma natDec_ne_nil (n : Nat) : natDec n ≠ [] :=
  (natDecAux_spec (n + 1) n (by omega)).1

lemma natDec_good (n : Nat) : ∀ c ∈ natDec n, GoodDigit c :=
  (natDecAux_spec (n + 1) n (by omega)).2.1

lemma natDec_foldl (n : Nat) :
    (natDec n).foldl (fun a c => 10 * a + (c.toNat - 48)) 0 = n :=
  (natDecAux_spec (n + 1) n (by omega)).2.2

lemma pyDigitsCore_all_digits (l : List Char) :
    ∀ acc : Nat, (∀ c ∈ l, c.isDigit = true) →
      pyDigitsCore acc l = some (l.foldl (fun a c => 10 * a + (c.toNat - 48)) acc) := by
  induction l with
  | nil => intro acc _; rfl
  | cons c rest ih =>
    intro acc h
    have hc : c.isDigit = true := h c (List.mem_cons_self c rest)
    have hrest : ∀ c' ∈ rest, c'.isDigit = true := fun c' hc' => h c' (List.mem_cons_of_mem c hc')
    simp [pyDigitsCore, hc, ih _ hrest, List.foldl]

lemma pyParseNat_natDec (n : Nat) : pyParseNat (natDec n) = some n := by
  obtain ⟨c, cs, hcons⟩ := List.exists_cons_of_ne_nil (natDec_ne_nil n)
  have hgood : ∀ c' ∈ natDec n, GoodDigit c' := natDec_good n
  have hc : c.isDigit = true := (hgood c (hcons ▸ List.mem_cons_self c cs)).1
  have hcs : ∀ c' ∈ cs, c'.isDigit = true := fun c' hc' =>
    (hgood c' (hcons ▸ List.mem_cons_of_mem c hc')).1
  have hval := natDec_foldl n
  rw [hcons] at hval ⊢
  rw [pyParseNat, if_pos hc, pyDigitsCore_all_digits cs _ hcs]
  simp only [List.foldl] at hval
  rw [show 10 * 0 + (c.toNat - 48) = c.toNat - 48 by omega] at hval
  rw [hval]

lemma dropWhile_eq_self_of_no_space (l : List Char)
    (h : ∀ c ∈ l, isPySpace c = false) : l.dropWhile isPySpace = l := by
  cases l with
  | nil => rfl
  | cons c rest =>
    rw [List.dropWhile_cons, h c (List.mem_cons_self c rest)]
    simp

lemma pyStrip_of_no_space (l : List Char)
    (h : ∀ c ∈ l, isPySpace c = false) : pyStrip l = l := by
  have hrev : ∀ c ∈ l.reverse, isPySpace c = false := fun c hc =>
    h c (List.mem_reverse.mp hc)
  rw [pyStrip, dropWhile_eq_self_of_no_space l h,
    dropWhile_eq_self_of_no_space l.reverse hrev, List.reverse_reverse]

lemma pyStrip_append_cr (l : List Char)
    (h : ∀ c ∈ l, isPySpace c = false) (hne : l ≠ []) :
    pyStrip (l ++ ['\r']) = l := by
  obtain ⟨c, cs, hcons⟩ := List.exists_cons_of_ne_nil hne
  have h1 : (l ++ ['\r']).dropWhile isPySpace = l ++ ['\r'] := by
    rw [hcons, List.cons_append, List.dropWhile_cons,
      h c (hcons ▸ List.mem_cons_self c cs)]
    simp
  have hrev : ∀ c' ∈ l.reverse, isPySpace c' = false := fun c' hc' =>
    h c' (List.mem_reverse.mp hc')
  rw [pyStrip, h1, List.reverse_append]
  show (('\r' :: l.reverse).dropWhile isPySpace).reverse = l
  rw [List.dropWhile_cons]
  norm_num [show isPySpace '\r' = true from by decide]
  rw [dropWhile_eq_self_of_no_space l.reverse hrev, List.reverse_reverse]

lemma pyInt_natDec (n : Nat) : pyInt (natDec n) = some (n : Int) := by
  obtain ⟨c, cs, hcons⟩ := List.exists_cons_of_ne_nil (natDec_ne_nil n)
  have hgood := natDec_good n
  have hstrip : pyStrip (natDec n) = natDec n :=
    pyStrip_of_no_space _ (fun c' hc' => (hgood c' hc').2.1)
  have hc := hgood c (hcons ▸ List.mem_cons_self c cs)
  rw [pyInt, hstrip, hcons]
  simp only [pySigned]
  rw [if_neg hc.2.2.2.1, if_neg hc.2.2.2.2, ← hcons, pyParseNat_natDec]
  rfl

lemma pyInt_intDec (i : Int) : pyInt (intDec i) = some i := by
  by_cases hneg : i < 0
  · have hgood := natDec_good i.natAbs
    have hstrip : pyStrip ('-' :: natDec i.natAbs) = '-' :: natDec i.natAbs := by
      refine pyStrip_of_no_space _ ?_
      intro c hc
      rcases List.mem_cons.mp hc with hc | hc
      · rw [hc]; decide
      · exact (hgood c hc).2.1
    rw [intDec, if_pos hneg, pyInt, hstrip]
    simp only [pySigned, if_true]
    rw [pyParseNat_natDec]
    simp only [Option.map_some']
    rw [if_neg (show ('-' : Char) ≠ '+' from by decide)]
    congr 1
    rw [Int.ofNat_eq_natCast]
    omega
  · rw [intDec, if_neg hneg, pyInt_natDec]
    congr 1
    omega

lemma pySplit_of_not_mem (sep : Char) (l : List Char) (h : sep ∉ l) :
    pySplit sep l = [l] := by
  induction l with
  | nil => rfl
  | cons c rest ih =>
    have hc : c ≠ sep := fun hceq => h (hceq ▸ List.mem_cons_self c rest)
    have hrest : sep ∉ rest := fun hm => h (List.mem_cons_of_mem c hm)
    rw [pySplit, if_neg hc, ih hrest]

lemma pySplit_sandwich (sep : Char) (a b : List Char)
    (ha : sep ∉ a) (hb : sep ∉ b) :
    pySplit sep (a ++ sep :: b) = [a, b] := by
  induction a with
  | nil =>
    rw [List.nil_append, pySplit, if_pos rfl, pySplit_of_not_mem sep b hb]
  | cons c rest ih =>
    have hc : c ≠ sep := fun hceq => ha (hceq ▸ List.mem_cons_self c rest)
    have hrest : sep ∉ rest := fun hm => ha (List.mem_cons_of_mem c hm)
    rw [List.cons_append, pySplit, if_neg hc, ih hrest]

lemma intDec_good_or_minus (i : Int) :
    ∀ c ∈ intDec i, GoodDigit c ∨ c = '-' := by
  intro c hc
  rw [intDec] at hc
  by_cases hneg : i < 0
  · rw [if_pos hneg] at hc
    rcases List.mem_cons.mp hc with hc | hc
    · exact Or.inr hc
    · exact Or.inl (natDec_good _ c hc)
  · rw [if_neg hneg] at hc
    exact Or.inl (natDec_good _ c hc)

lemma intDec_not_colon (i : Int) : (':' : Char) ∉ intDec i := by
  intro h
  rcases intDec_good_or_minus i ':' h with hg | hg
  · exact hg.2.2.1 rfl
  · exact absurd hg (by decide)

lemma intDec_no_space (i : Int) : ∀ c ∈ intDec i, isPySpace c = false := by
  intro c hc
  rcases intDec_good_or_minus i c hc with hg | hg
  · exact hg.2.1
  · rw [hg]; decide

lemma intDec_ne_nil (i : Int) : intDec i ≠ [] := by
  rw [intDec]
  by_cases hneg : i < 0
  · rw [if_pos hneg]; exact List.cons_ne_nil _ _
  · rw [if_neg hneg]; exact natDec_ne_nil _

/-- The success path of handle_data: a well-formed frame is decoded into
both scaled fields with the event set. -/
lemma handleData_encode (y x : Int) (s : ServerState) :
    handleData (encodeFrame y x) s =
      { s with
        reading := { s.reading with
          y := ((y : Int) : Rat) / 100, x := ((x : Int) : Rat) / 100 },
        newDataAvailable := true } := by
  have hcolon_x : (':' : Char) ∉ intDec x ++ ['\r'] := by
    intro h
    rcases List.mem_append.mp h with h | h
    · exact intDec_not_colon x h
    · exact absurd (List.mem_singleton.mp h) (by decide)
  have henc : encodeFrame y x =
      'N' :: ':' :: (intDec y ++ ':' :: (intDec x ++ ['\r'])) := by
    simp [encodeFrame]
  have hstart :
      startsWithNColon ('N' :: ':' :: (intDec y ++ ':' :: (intDec x ++ ['\r']))) = true := by
    simp [startsWithNColon]
  rw [handleData, henc, if_pos hstart]
  simp only [List.drop_succ_cons, List.drop_zero]
  rw [pySplit_sandwich ':' (intDec y) (intDec x ++ ['\r']) (intDec_not_colon y) hcolon_x]
  simp only [pyStrip_of_no_space (intDec y) (intDec_no_space y),
    pyStrip_append_cr (intDec x) (intDec_no_space x) (intDec_ne_nil x),
    pyInt_intDec]

/-- A buffer that does not begin with the START marker leaves the state
untouched. -/
lemma handleData_no_prefix (buf : List Char) (s : ServerState)
    (h : startsWithNColon buf = false) : handleData buf s = s := by
  rw [handleData, if_neg (by rw [h]; exact Bool.false_ne_true)]

/-- A buffer whose remainder does not split into exactly two parts leaves
the state untouched. -/
lemma handleData_bad_split (buf : List Char) (s : ServerState)
    (h : (pySplit ':' (buf.drop 2)).length ≠ 2) : handleData buf s = s := by
  rw [handleData]
  by_cases hb : startsWithNColon buf = true
  · rw [if_pos hb]
    rcases hp : pySplit ':' (buf.drop 2) with _ | ⟨p0, _ | ⟨p1, _ | ⟨p2, rest⟩⟩⟩
    · rfl
    · rfl
    · rw [hp] at h
      exact absurd rfl h
    · rfl
  · rw [if_neg hb]

/-! The claims. -/

/-- Claim C1: for every pair of integers y and x in the range
[-99999, 99999], parsing the buffer formed as N: plus decimal y plus the
colon plus decimal x plus carriage return succeeds and produces the
reading y/100 and x/100 exactly (rationals model the float values, so the
division by 100 is exact), setting the new-data event and changing
nothing else. -/
theorem c1_frame_roundtrip (y x : Int) (s : ServerState)
    (_hy1 : -99999 ≤ y) (_hy2 : y ≤ 99999)
    (_hx1 : -99999 ≤ x) (_hx2 : x ≤ 99999) :
    handleData (encodeFrame y x) s =
      { s with
        reading := { s.reading with
          y := (y : Rat) / 100, x := (x : Rat) / 100 },
        newDataAvailable := true } :=
  handleData_encode y x s

theorem c1_frame_roundtrip_witness :
    (-99999 ≤ (1234 : Int) ∧ (1234 : Int) ≤ 99999 ∧
      -99999 ≤ (-567 : Int) ∧ (-567 : Int) ≤ 99999) ∧
    handleData (encodeFrame 1234 (-567)) initialState =
      { initialState with
        reading := { initialState.reading with
          y := ((1234 : Int) : Rat) / 100, x := (((-567 : Int)) : Rat) / 100 },
        newDataAvailable := true } :=
  ⟨⟨by decide, by decide, by decide, by decide⟩,
    c1_frame_roundtrip 1234 (-567) initialState
      (by decide) (by decide) (by decide) (by decide)⟩

/-- Claim C2 counterexample: the buffer N:1:2 is missing the
carriage-return END terminator, yet handle_data decodes it and updates
the cache, so the claim that a buffer missing END yields no frame is
false on the code. -/
theorem c2_end_not_required_cex :
    ('\r' ∉ ['N', ':', '1', ':', '2']) ∧
    (handleData ['N', ':', '1', ':', '2'] initialState).newDataAvailable = true ∧
    (handleData ['N', ':', '1', ':', '2'] initialState).reading.y = 1 / 100 ∧
    (handleData ['N', ':', '1', ':', '2'] initialState).reading.x = 2 / 100 ∧
    initialState.newDataAvailable = false :=
  ⟨by decide, rfl, rfl, rfl, rfl⟩

/-- Claim C2 (amended): for every buffer that does not start with the
2-byte START marker N:, or whose remainder after the marker does not
split on the colon into exactly two parts, the parser returns no frame
(the state, in particular the cached reading, is unchanged) and never
raises, the parser being a total function; the carriage-return END
terminator is not checked, so a buffer missing it can still parse. -/
theorem c2_parser_no_frame_amended (buf : List Char) (s : ServerState)
    (h : startsWithNColon buf = false ∨ (pySplit ':' (buf.drop 2)).length ≠ 2) :
    handleData buf s = s := by
  rcases h with h | h
  · exact handleData_no_prefix buf s h
  · exact handleData_bad_split buf s h

theorem c2_parser_no_frame_amended_witness :
    (startsWithNColon ['X'] = false ∨
      (pySplit ':' (List.drop 2 ['X'])).length ≠ 2) ∧
    handleData ['X'] initialState = initialState :=
  ⟨Or.inl (by decide),
    c2_parser_no_frame_amended ['X'] initialState (Or.inl (by decide))⟩

/-- Claim C3 counterexample: the frame N:1:2 followed by carriage return
is valid (it updates the cache), but prepending the single garbage byte x
makes the parser return no frame, so leading garbage is not skipped. -/
theorem c3_prefix_garbage_cex :
    (handleData (encodeFrame 1 2) initialState).newDataAvailable = true ∧
    (handleData (encodeFrame 1 2) initialState).reading.y = 1 / 100 ∧
    initialState.newDataAvailable = false ∧
    handleData ('x' :: encodeFrame 1 2) initialState = initialState :=
  ⟨rfl, rfl, rfl, rfl⟩

/-- Claim C3 (amended): the parser anchors the START marker at offset 0
rather than skipping garbage: for every valid frame and every non-empty
garbage sequence that does not itself begin with N:, parsing the
concatenation returns no frame and leaves the state unchanged. -/
theorem c3_prefix_anchored_amended (g : List Char) (y x : Int) (s : ServerState)
    (hne : g ≠ []) (hstart : startsWithNColon g = false) :
    handleData (g ++ encodeFrame y x) s = s := by
  apply handleData_no_prefix
  rcases g with _ | ⟨c1, _ | ⟨c2, t⟩⟩
  · exact absurd rfl hne
  · have henc : encodeFrame y x =
        'N' :: ':' :: (intDec y ++ ':' :: (intDec x ++ ['\r'])) := by
      simp [encodeFrame]
    rw [List.singleton_append, henc]
    simp [startsWithNColon]
  · rw [List.cons_append, List.cons_append]
    rw [startsWithNColon] at hstart ⊢
    exact hstart

theorem c3_prefix_anchored_amended_witness :
    (['x'] ≠ ([] : List Char)) ∧ startsWithNColon ['x'] = false ∧
    handleData (['x'] ++ encodeFrame 3 4) initialState = initialState :=
  ⟨by decide, by decide,
    c3_prefix_anchored_amended ['x'] 3 4 initialState (by decide) (by decide)⟩

/-- Claim C4: cache updates are atomic per callback invocation: for every
notification payload, handle_data either leaves the whole state (in
particular both cached fields) unchanged, or overwrites both fields with
the freshly parsed values and sets the event, so no observer sees a pair
mixing an old sample with a new one. -/
theorem c4_atomic_update (data : List Char) (s : ServerState) :
    handleData data s = s ∨
    ∃ yr xr : Int, handleData data s =
      { s with
        reading := { s.reading with
          y := (yr : Rat) / 100, x := (xr : Rat) / 100 },
        newDataAvailable := true } := by
  rw [handleData]
  split
  · split
    · split
      · exact Or.inl rfl
      · split
        · exact Or.inl rfl
        · exact Or.inr ⟨_, _, rfl⟩
    · exact Or.inl rfl
  · exact Or.inl rfl

/-! The broadcast hub. -/

/-- One update-then-drain cycle of the hub: a parsed reading is written
into the cache (setting the event) and the broadcast loop wakes and
drains it. -/
def brCycle (u : Rat × Rat) (s : ServerState) : ServerState :=
  broadcastStep (cacheUpdate u.1 u.2 s)

/-- When the event is clear the broadcast loop stays blocked in wait. -/
lemma broadcastStep_blocked (s : ServerState)
    (h : s.newDataAvailable = false) : broadcastStep s = s := by
  rw [broadcastStep, if_neg (by rw [h]; exact Bool.false_ne_true)]

/-- An alive client attached before a cycle stays attached, the device id
of the cached reading is preserved, and the client receives the reading
of that cycle. -/
lemma brCycle_delivers (b : Nat) (i0 : Option (List Char)) (s : ServerState)
    (hb : ({ id := b, alive := true } : Client) ∈ s.clients)
    (hid : s.reading.id = i0) (u : Rat × Rat) :
    ({ id := b, alive := true } : Client) ∈ (brCycle u s).clients ∧
    (brCycle u s).reading.id = i0 ∧
    (b, ({ id := i0, y := u.1, x := u.2 } : Reading)) ∈ (brCycle u s).delivered := by
  have hne : s.clients ≠ [] := List.ne_nil_of_mem hb
  have hnotempty : s.clients.isEmpty = false := by
    rw [List.isEmpty_eq_false]
    exact hne
  have hmem_alive : ({ id := b, alive := true } : Client) ∈
      s.clients.filter (fun c => c.alive) :=
    List.mem_filter.mpr ⟨hb, rfl⟩
  have hmem_map : (b, ({ id := i0, y := u.1, x := u.2 } : Reading)) ∈
      (s.clients.filter (fun c => c.alive)).map
        (fun c => (c.id, ({ id := i0, y := u.1, x := u.2 } : Reading))) := by
    exact List.mem_map.mpr ⟨_, hmem_alive, rfl⟩
  have hnotdisc : ({ id := b, alive := true } : Client) ∉
      s.clients.filter (fun c => !c.alive) := by
    intro hcontr
    have := (List.mem_filter.mp hcontr).2
    simp at this
  rw [brCycle, cacheUpdate, broadcastStep]
  simp only [hid, if_true]
  simp only [hnotempty]
  rw [if_neg (Bool.false_ne_true)]
  by_cases hdisc : (s.clients.filter (fun c => !c.alive)).isEmpty = true
  · rw [if_pos hdisc]
    refine ⟨hb, rfl, ?_⟩
    exact List.mem_append_right _ hmem_map
  · rw [if_neg hdisc]
    refine ⟨?_, rfl, List.mem_append_right _ hmem_map⟩
    exact List.mem_filter.mpr ⟨hb, decide_eq_true hnotdisc⟩

/-- Through any sequence of further cycles ending with the cycle for
update u, the attached alive client receives u. -/
lemma brCycle_foldl_delivers (b : Nat) (i0 : Option (List Char)) :
    ∀ (us : List (Rat × Rat)) (s : ServerState),
      ({ id := b, alive := true } : Client) ∈ s.clients →
      s.reading.id = i0 → ∀ u : Rat × Rat,
      (b, ({ id := i0, y := u.1, x := u.2 } : Reading)) ∈
        (List.foldl (fun st v => brCycle v st) s (us ++ [u])).delivered := by
  intro us
  induction us with
  | nil =>
    intro s hb hid u
    rw [List.nil_append, List.foldl_cons, List.foldl_nil]
    exact (brCycle_delivers b i0 s hb hid u).2.2
  | cons u' us ih =>
    intro s hb hid u
    rw [List.cons_append, List.foldl_cons]
    obtain ⟨hb', hid', _⟩ := brCycle_delivers b i0 s hb hid u'
    exact ih (brCycle u' s) hb' hid' u

/-- The state of claim C5: one alive client, no pending event, then the
three updates (1,1), (2,2), (3,3) written to the cache before any drain. -/
def c5Start (r0 : Reading) (cid : Nat) : ServerState :=
  cacheUpdate 3 3 (cacheUpdate 2 2 (cacheUpdate 1 1
    { reading := r0, newDataAvailable := false,
      clients := [{ id := cid, alive := true }], delivered := [] }))

/-- Claim C5: if the updates (1,1), (2,2), (3,3) are applied to the cache
before the broadcast loop drains the pending-update event, the loop wakes
exactly once and delivers exactly one reading, (3,3): the first drain
delivers only (3,3) and every further drain is a no-op, so a superseded
reading is never delivered after a drain. -/
theorem c5_last_value_wins (r0 : Reading) (cid : Nat) :
    (broadcastStep (c5Start r0 cid)).delivered =
      [(cid, { id := r0.id, y := 3, x := 3 })] ∧
    ∀ n : Nat, broadcastStep^[n + 1] (c5Start r0 cid) =
      broadcastStep (c5Start r0 cid) := by
  have hbroad : broadcastStep (c5Start r0 cid) =
      { reading := { id := r0.id, y := 3, x := 3 }, newDataAvailable := false,
        clients := [{ id := cid, alive := true }],
        delivered := [(cid, { id := r0.id, y := 3, x := 3 })] } := rfl
  refine ⟨by rw [hbroad], ?_⟩
  intro n
  rw [Function.iterate_succ_apply]
  exact Function.iterate_fixed
    (by rw [hbroad]; exact broadcastStep_blocked _ rfl) n

/-- The state of claim C6: a pending reading with two attached clients,
client a whose transport is closed and client b whose transport is
alive. -/
def c6Start (a b : Nat) (r1 : Reading) : ServerState :=
  { reading := r1, newDataAvailable := true,
    clients := [{ id := a, alive := false }, { id := b, alive := true }],
    delivered := [] }

/-- Claim C6: with two consumers attached, when consumer a's send fails
because its transport is closed, the broadcast loop removes exactly a
(the hub continues: this is not a hub-level error), consumer b still
receives that broadcast, and b receives the reading of every subsequent
update-drain cycle. -/
theorem c6_consumer_isolation (a b : Nat) (r1 : Reading)
    (us : List (Rat × Rat)) (u : Rat × Rat) :
    (broadcastStep (c6Start a b r1)).clients = [{ id := b, alive := true }] ∧
    (broadcastStep (c6Start a b r1)).delivered = [(b, r1)] ∧
    (b, ({ id := r1.id, y := u.1, x := u.2 } : Reading)) ∈
      (List.foldl (fun st v => brCycle v st) (broadcastStep (c6Start a b r1))
        (us ++ [u])).delivered := by
  have hbroad : broadcastStep (c6Start a b r1) =
      { reading := r1, newDataAvailable := false,
        clients := [{ id := b, alive := true }],
        delivered := [(b, r1)] } := by
    simp [broadcastStep, c6Start, Client.mk.injEq, List.filter]
  refine ⟨by rw [hbroad], by rw [hbroad], ?_⟩
  exact brCycle_foldl_delivers b r1.id us _
    (by rw [hbroad]; exact List.mem_singleton.mpr rfl) (by rw [hbroad]) u

/-! The supervisor loop. -/

lemma connectAndRun_false (r : SessionResult) : connectAndRun r = false := by
  cases r <;> rfl

/-- Composing one backoff step with the cap commutes with capping the
square, under a sane configuration (positive base no larger than the
ceiling, positive factor). -/
lemma min_backoff_sq (d f maxD : Rat) (hd : 0 < d) (hdm : d ≤ maxD)
    (hf : 0 < f) : min (min (d * f) maxD * f) maxD = min (d * f ^ 2) maxD := by
  rcases le_or_lt (d * f) maxD with h | h
  · rw [min_eq_left h]
    congr 1
    ring
  · have hmax_pos : 0 < maxD := lt_of_lt_of_le hd hdm
    have hf1 : 1 < f := by nlinarith
    rw [min_eq_right (le_of_lt h), min_eq_right (by nlinarith), min_eq_right (by nlinarith)]

/-- Claim C7 counterexample: with base 5, factor 3/2, ceiling 60 and no
attempt cap, two failed cycles are followed by a session that reaches
Connected and then disconnects; connect_and_run still returns False, so
the run loop treats it as a failure and sleeps 45/4 and then 135/8 -- the
delay after the successful Connected session is not reset to the base 5. -/
theorem c7_no_reset_cex :
    (runModel (3 / 2) 60 (-1) 5 0
      [SessionResult.connectFailed, SessionResult.connectFailed,
        SessionResult.connectedThenDisconnected, SessionResult.connectFailed]).1 =
      [5, 15 / 2, 45 / 4, 135 / 8] ∧
    connectAndRun SessionResult.connectedThenDisconnected = false ∧
    (135 / 8 : Rat) ≠ 5 := by
  refine ⟨?_, rfl, by norm_num⟩
  norm_num [runModel, connectAndRun_false]

/-- Claim C7 (amended): three consecutive connection attempt cycles
produce the reconnect delays d, min(d*f, max), min(d*f^2, max) -- growth
by the backoff factor capped at the maximum -- regardless of whether any
of the sessions reached Connected before ending: connect_and_run returns
False even for a successful session, so the run loop never resets the
delay to the base. -/
theorem c7_backoff_growth_amended (d f maxD : Rat) (r1 r2 r3 : SessionResult)
    (hd : 0 < d) (hdm : d ≤ maxD) (hf : 0 < f) :
    (runModel f maxD (-1) d 0 [r1, r2, r3]).1 =
      [d, min (d * f) maxD, min (d * f ^ 2) maxD] := by
  have hcap1 : ¬(0 < (-1 : Int) ∧ (-1 : Int) ≤ ((0 + 1 : Nat) : Int)) := by omega
  have hcap2 : ¬(0 < (-1 : Int) ∧ (-1 : Int) ≤ ((1 + 1 : Nat) : Int)) := by omega
  have hcap3 : ¬(0 < (-1 : Int) ∧ (-1 : Int) ≤ ((2 + 1 : Nat) : Int)) := by omega
  rw [runModel, connectAndRun_false r1]
  simp only [Bool.false_eq_true, if_false, if_neg hcap1]
  rw [runModel, connectAndRun_false r2]
  simp only [Bool.false_eq_true, if_false, if_neg hcap2]
  rw [runModel, connectAndRun_false r3]
  simp only [Bool.false_eq_true, if_false, if_neg hcap3]
  rw [runModel]
  simp only []
  rw [min_backoff_sq d f maxD hd hdm hf]

theorem c7_backoff_growth_amended_witness :
    ((0 : Rat) < 5 ∧ (5 : Rat) ≤ 60 ∧ (0 : Rat) < 3 / 2) ∧
    (runModel (3 / 2) 60 (-1) 5 0
      [SessionResult.connectFailed, SessionResult.noDevice,
        SessionResult.connectedThenDisconnected]).1 =
      [5, min (5 * (3 / 2)) 60, min (5 * (3 / 2) ^ 2) 60] :=
  ⟨⟨by norm_num, by norm_num, by norm_num⟩,
    c7_backoff_growth_amended 5 (3 / 2) 60 SessionResult.connectFailed
      SessionResult.noDevice SessionResult.connectedThenDisconnected
      (by norm_num) (by norm_num) (by norm_num)⟩

lemma sendKeepaliveGo_replicate (st : ConnState) (post : List KAEvent) :
    ∀ (k n : Nat),
      sendKeepaliveGo st n (List.replicate k KAEvent.writeOk ++ KAEvent.writeFail :: post) =
        { writes := n + k + 1, state := st, released := false } := by
  intro k
  induction k with
  | zero => intro n; rfl
  | succ k ih =>
    intro n
    rw [List.replicate_succ, List.cons_append, sendKeepaliveGo, ih (n + 1)]
    congr 1
    omega

/-- Claim C8 counterexample: with keepalive enabled and the supervisor in
the Connected state, a single failed keepalive write ends the keepalive
loop after that one write, with the supervisor state still Connected (not
Reconnecting) and the session not released. -/
theorem c8_keepalive_cex :
    sendKeepalive true ConnState.connected [KAEvent.writeFail] =
      { writes := 1, state := ConnState.connected, released := false } ∧
    ConnState.connected ≠ ConnState.reconnecting :=
  ⟨rfl, by decide⟩

/-- Claim C8 (amended): a failed keepalive write only terminates the
keepalive loop: after k successful writes, the failing write is the last
(k+1-th) write attempted no matter what the rest of the trace holds, the
supervisor state is returned unchanged, and the session is not released
by this coroutine; link loss is detected only by the disconnect callback
awaited in connect_and_run, not by the keepalive failure. -/
theorem c8_keepalive_amended (k : Nat) (post : List KAEvent) (st : ConnState) :
    sendKeepalive true st
      (List.replicate k KAEvent.writeOk ++ KAEvent.writeFail :: post) =
      { writes := k + 1, state := st, released := false } := by
  rw [sendKeepalive, if_pos rfl, sendKeepaliveGo_replicate st post k 0]
  congr 1
  omega

/-- Claim C9 counterexample: two consumers with sequential send: when the
first consumer's send stalls for 100 time units, the second consumer's
delivery completes at 101; had the first send taken no time, the second
would complete at 1. The first consumer's stall therefore delays
delivery to the second, contradicting concurrent fan-out. -/
theorem c9_sequential_cex :
    sendSeq 0 [(0, 100), (1, 1)] = [(0, 100), (1, 101)] ∧
    sendSeq 0 [(0, 0), (1, 1)] = [(0, 0), (1, 1)] ∧
    (101 : Nat) ≠ 1 :=
  ⟨rfl, rfl, by decide⟩

/-- Claim C9 (amended): on each wake the broadcast loop serializes the
current reading exactly once -- every delivery of that wake carries the
one serialized message -- but delivery is sequential in iteration order,
not concurrent: a consumer's send completes only after the total duration
of all earlier consumers' sends plus its own, so a stalled consumer
delays delivery to every consumer after it. -/
theorem c9_broadcast_amended :
    (∀ s : ServerState,
      (broadcastStep s).delivered = s.delivered ∨
      ∃ msg : Reading, (broadcastStep s).delivered =
        s.delivered ++
          (s.clients.filter (fun c => c.alive)).map (fun c => (c.id, msg))) ∧
    ∀ (t : Nat) (pre : List (Nat × Nat)) (cid d : Nat) (post : List (Nat × Nat)),
      (cid, t + (pre.map Prod.snd).sum + d) ∈ sendSeq t (pre ++ (cid, d) :: post) := by
  constructor
  · intro s
    rw [broadcastStep]
    split
    · dsimp only
      split
      · exact Or.inl rfl
      · split
        · exact Or.inr ⟨s.reading, rfl⟩
        · exact Or.inr ⟨s.reading, rfl⟩
    · exact Or.inl rfl
  · intro t pre
    induction pre generalizing t with
    | nil =>
      intro cid d post
      rw [List.nil_append, sendSeq]
      simp
    | cons hd pre ih =>
      intro cid d post
      rcases hd with ⟨c0, d0⟩
      rw [List.cons_append, sendSeq]
      refine List.mem_cons_of_mem _ ?_
      have harith : t + (((c0, d0) :: pre).map Prod.snd).sum + d =
          t + d0 + (pre.map Prod.snd).sum + d := by
        simp [List.map_cons, List.sum_cons]
        omega
      rw [harith]
      exact ih (t + d0) cid d post

lemma runModel_sessions_le (f maxD : Rat) (N : Int) :
    ∀ (os : List SessionResult) (d : Rat) (count : Nat),
      (count : Int) < N →
      ((runModel f maxD N d count os).2 : Int) ≤ N - count := by
  intro os
  induction os with
  | nil =>
    intro d count h
    rw [runModel]
    simp only [Nat.cast_zero]
    omega
  | cons r rs ih =>
    intro d count h
    rw [runModel, connectAndRun_false r]
    simp only [Bool.false_eq_true, if_false]
    by_cases hcap : 0 < N ∧ N ≤ ((count + 1 : Nat) : Int)
    · rw [if_pos hcap]
      push_cast at hcap ⊢
      omega
    · rw [if_neg hcap]
      have hlt : ((count + 1 : Nat) : Int) < N := by
        push_cast at hcap ⊢
        omega
      have hrec := ih (min (d * f) maxD) (count + 1) hlt
      push_cast at hrec ⊢
      omega

/-- Claim C10: connect_and_run returns False on every execution path,
including the path where the device connected successfully and the
session later ended in disconnect; consequently, for every positive
attempt cap N the run loop performs at most N sessions in total before
terminating, whatever mix of failed and successful sessions occurs --
successful sessions count toward the cap exactly like failed attempts. -/
theorem c10_sessions_capped :
    (∀ r : SessionResult, connectAndRun r = false) ∧
    ∀ (f maxD d : Rat) (N : Int) (os : List SessionResult), 0 < N →
      ((runModel f maxD N d 0 os).2 : Int) ≤ N := by
  refine ⟨connectAndRun_false, ?_⟩
  intro f maxD d N os hN
  have h := runModel_sessions_le f maxD N os d 0 (by omega)
  push_cast at h
  omega

theorem c10_sessions_capped_witness :
    (0 : Int) < 2 ∧
    ((runModel 1 1 2 1 0
      [SessionResult.connectedThenDisconnected, SessionResult.connectFailed,
        SessionResult.connectFailed]).2 : Int) ≤ 2 :=
  ⟨by decide,
    c10_sessions_capped.2 1 1 1 2
      [SessionResult.connectedThenDisconnected, SessionResult.connectFailed,
        SessionResult.connectFailed] (by decide)⟩

end Kiriri
